import Mathlib

/-
Shallow embedding of the serial transport layer of the goregen repository
(src/regenbox/serial.go), together with the discovery loop FindSerial.

Modelling conventions:
- bytes are Nat values, frames are List Nat (only equality of bytes matters);
- Go time.Duration is a Nat counting nanoseconds (DefaultTimeout = time.Second);
- Go error values surfaced by this package are the inductive GoError below;
  nil errors are none : Option GoError; errors coming verbatim out of the
  physical port (go.bug.st/serial Read/Write/Open) are opaque strings wrapped
  in GoError.ioError;
- the blocking channel selects of Read / Write are embedded by an explicit
  branch argument naming which select case fired (the schedule oracle);
- the physical port of the read worker is embedded as a byte stream plus an
  oracle list of PortRead records saying how each successive physical read
  splits the stream (and which read fails);
- the terminator byte StopByte is declared in a file of the regenbox package
  that is not part of the given source, so the framing functions take the
  terminator value as an explicit parameter stop.
-/

/-- Error values surfaced by the serial transport, mirroring the error values
of src/regenbox/serial.go: ErrClosedPort, ErrNoSerialPortFound, the two
fmt.Errorf timeout errors (each carrying the configured duration that Go
renders into the message), and underlying physical I/O errors propagated
verbatim (kept as opaque strings). -/
inductive GoError where
  | errClosedPort : GoError
  | noSerialPortFound : GoError
  | readTimeout (d : Nat) : GoError
  | writeTimeout (d : Nat) : GoError
  | ioError (msg : String) : GoError
deriving DecidableEq

/-- The duration carried by a timeout error, if the error is one: Go embeds
this duration into the message of the fmt.Errorf timeout errors of Read and
Write, so an error carries the configured duration exactly when this
projection recovers it. -/
def GoError.timeoutDuration : GoError → Option Nat
  | .readTimeout d => some d
  | .writeTimeout d => some d
  | _ => none

/-- Link configuration, mirroring serial.Mode (parity and stop bits kept as
small integers, as in the Go library constants). -/
structure SerialMode where
  baudRate : Nat
  parity : Nat
  dataBits : Nat
  stopBits : Nat
deriving DecidableEq

/-- DefaultSerialConfig of serial.go: 57600 baud, NoParity (0), 8 data bits,
OneStopBit (1). -/
def DefaultSerialConfig : SerialMode :=
  { baudRate := 57600, parity := 0, dataBits := 8, stopBits := 1 }

/-- DefaultTimeout = time.Second, in nanoseconds. -/
def DefaultTimeout : Nat := 1000000000

/-- The probing timeout used by FindSerial: time.Millisecond * 50. -/
def probingTimeout : Nat := 50000000

/-- The externally observable state of a SerialConnection: the two timeout
fields, the immutable path and config, the lockPort flag stored in the
locked field, and whether the shutdown signal closeChan has been fired.
The physical port handle itself is not part of the state; its behaviour
enters through the oracles of the operations. -/
structure SerialConnection where
  readTimeout : Nat
  writeTimeout : Nat
  path : String
  locked : Bool
  config : SerialMode
  closed : Bool
deriving DecidableEq

/-- NewSerial of serial.go: stores the config, name and lockPort flag and
sets both timeouts to DefaultTimeout; the connection starts with the
shutdown signal not fired. The port handle argument is not modelled. -/
def NewSerial (config : SerialMode) (name : String) (lockPort : Bool) : SerialConnection :=
  { readTimeout := DefaultTimeout
    writeTimeout := DefaultTimeout
    path := name
    locked := lockPort
    config := config
    closed := false }

/-- Which case of the inner select of Read fired after a frame was received
on rdChan: either the read worker delivered its paired error on errChan
(a physical read error, or none), or the shutdown signal fired first. -/
inductive ReadAfterFrame where
  | workerErr (e : Option String) : ReadAfterFrame
  | closedFired : ReadAfterFrame

/-- Which case of the outer select of Read fired: a frame arrived on rdChan
(followed by the inner select), the shutdown signal fired, or the
time.After(sc.ReadTimeout) timer fired. -/
inductive ReadBranch where
  | frameFirst (b : List Nat) (second : ReadAfterFrame) : ReadBranch
  | closedFirst : ReadBranch
  | timeoutFirst : ReadBranch

/-- Read of serial.go, as a function of the select branches that fired.
In the frameFirst / closedFired branch the err variable keeps its zero value
nil; in the closedFirst branch b keeps its zero value (the empty frame) and
err is ErrClosedPort; in the timer branch err is the fmt.Errorf read-timeout
error carrying sc.ReadTimeout. -/
def SerialConnection.Read (sc : SerialConnection) : ReadBranch → List Nat × Option GoError
  | .frameFirst b (.workerErr e) => (b, e.map GoError.ioError)
  | .frameFirst b .closedFired => (b, none)
  | .closedFirst => ([], some GoError.errClosedPort)
  | .timeoutFirst => ([], some (GoError.readTimeout sc.readTimeout))

/-- Which case of the inner select of Write fired after the frame was
accepted on wrChan: the write worker delivered the error of its physical
write on errChan, or the shutdown signal fired (setting err to
ErrClosedPort). There is no timer case in this select. -/
inductive WriteAfterAccept where
  | workerErr (e : Option String) : WriteAfterAccept
  | closedFired : WriteAfterAccept

/-- Which case of the outer select of Write fired: the frame was accepted on
wrChan (followed by the inner select), the shutdown signal fired, or the
time.After(sc.WriteTimeout) timer fired. -/
inductive WriteBranch where
  | accepted (second : WriteAfterAccept) : WriteBranch
  | closedFirst : WriteBranch
  | timeoutFirst : WriteBranch

/-- Write of serial.go, as a function of the select branches that fired. -/
def SerialConnection.Write (sc : SerialConnection) (b : List Nat) : WriteBranch → Option GoError
  | .accepted (.workerErr e) => e.map GoError.ioError
  | .accepted .closedFired => some GoError.errClosedPort
  | .closedFirst => some GoError.errClosedPort
  | .timeoutFirst => some (GoError.writeTimeout sc.writeTimeout)

/-- The side effects a call to Close can perform, in order: close(closeChan),
sc.Port.Close(), sc.wg.Wait(). -/
inductive CloseAction where
  | fireShutdown : CloseAction
  | portClose : CloseAction
  | waitWorkers : CloseAction
deriving DecidableEq

/-- Close of serial.go. The leading select with a default case is a
non-blocking check of the shutdown signal: if it already fired, Close
returns ErrClosedPort at once, performing no action. Otherwise it fires the
shutdown signal, physically closes the port (portCloseErr is the oracle for
the result of sc.Port.Close()), waits for both workers, and returns the
physical close result. The returned triple is (new state, returned error,
actions performed). -/
def SerialConnection.Close (sc : SerialConnection) (portCloseErr : Option String) :
    SerialConnection × Option GoError × List CloseAction :=
  if sc.closed then
    (sc, some GoError.errClosedPort, [])
  else
    ({ sc with closed := true }, portCloseErr.map GoError.ioError,
      [CloseAction.fireShutdown, CloseAction.portClose, CloseAction.waitWorkers])

/-- Closed of serial.go exposes the shutdown signal; here: whether it has
fired. -/
def SerialConnection.ClosedSignal (sc : SerialConnection) : Bool := sc.closed

/-- Path of serial.go. -/
def SerialConnection.Path (sc : SerialConnection) : String := sc.path

/-- The kinds of select cases occurring in Read and Write of serial.go. -/
inductive SelectCase where
  | recvRdChan : SelectCase
  | recvErrChan : SelectCase
  | recvCloseChan : SelectCase
  | sendWrChan : SelectCase
  | timer : SelectCase
deriving DecidableEq

/-- The cases of the outer select of Read: receive on rdChan, receive on
closeChan, time.After(sc.ReadTimeout). -/
def readOuterSelect : List SelectCase :=
  [SelectCase.recvRdChan, SelectCase.recvCloseChan, SelectCase.timer]

/-- The cases of the inner select of Read (after a frame arrived): receive on
errChan, receive on closeChan. No timer case. -/
def readInnerSelect : List SelectCase :=
  [SelectCase.recvErrChan, SelectCase.recvCloseChan]

/-- The cases of the outer select of Write: send on wrChan, receive on
closeChan, time.After(sc.WriteTimeout). -/
def writeOuterSelect : List SelectCase :=
  [SelectCase.sendWrChan, SelectCase.recvCloseChan, SelectCase.timer]

/-- The cases of the inner select of Write (after the frame was accepted):
receive on errChan, receive on closeChan. No timer case. -/
def writeInnerSelect : List SelectCase :=
  [SelectCase.recvErrChan, SelectCase.recvCloseChan]

/-- The channel fields of the SerialConnection struct. -/
inductive GoChan where
  | rdChan : GoChan
  | wrChan : GoChan
  | errChan : GoChan
  | closeChan : GoChan
deriving DecidableEq

/-- The channel on which readRoutine delivers each completed frame
(sc.rdChan <- b[:i]). -/
def readRoutineFrameChan : GoChan := GoChan.rdChan

/-- The channel on which readRoutine delivers the error paired with each
frame (sc.errChan <- err). -/
def readRoutineErrChan : GoChan := GoChan.errChan

/-- The channel from which writeRoutine receives frames to write
(b = <-sc.wrChan). -/
def writeRoutineRecvChan : GoChan := GoChan.wrChan

/-- The channel on which writeRoutine delivers the error of each physical
write (sc.errChan <- err). -/
def writeRoutineErrChan : GoChan := GoChan.errChan

/-- The channel from which Read receives frames (b = <-sc.rdChan). -/
def readCallFrameChan : GoChan := GoChan.rdChan

/-- The channel from which the inner select of Read receives the error
(err = <-sc.errChan). -/
def readCallErrChan : GoChan := GoChan.errChan

/-- The channel on which Write submits frames (sc.wrChan <- b). -/
def writeCallSendChan : GoChan := GoChan.wrChan

/-- The channel from which the inner select of Write receives the error
(err = <-sc.errChan). -/
def writeCallErrChan : GoChan := GoChan.errChan

/-- Oracle for one physical read sc.Port.Read(buf): how many bytes the port
hands over this time (n, clamped below by the model: a successful blocking
read returns at least one byte whenever the buffer and the pending stream
are nonempty, and at most the free space and the pending bytes), and the
error this read reports (none on success). -/
structure PortRead where
  n : Nat
  err : Option String
deriving DecidableEq

/-- The number of bytes one call to sc.Port.Read hands over according to the
oracle entry r, given free bytes of buffer space and avail pending bytes:
the oracle count r.n clamped to the free space and the pending bytes, and
clamped below by one on a successful read (a blocking read that returns
without error has read at least one byte) whenever buffer space and pending
bytes remain. -/
def portChunk (r : PortRead) (free avail : Nat) : Nat :=
  min (if r.err = none then max r.n 1 else r.n) (min free avail)

/-- The accumulation loop of readRoutine of serial.go over a pending byte
stream s. The accumulated buffer b plays the role of b[:i] inside the fixed
32-byte buffer, j is the byte count of the most recent physical read, e the
error of the most recent physical read. While e is nil, the last read made
progress, and the last accumulated byte is not the terminator stop, another
physical read is issued into b[i:], consuming the next PortRead oracle
entry; the loop stops as soon as the condition fails. Returns none when the
oracle list is exhausted while the loop still wants to read (the modelled
run is too short), otherwise the final (b[:i], remaining stream, err). -/
def readLoopAux (stop : Nat) :
    List PortRead → List Nat → List Nat → Nat → Option String →
    Option (List Nat × List Nat × Option String)
  | [], b, s, j, e =>
    if e = none ∧ 0 < j ∧ b.getLast? ≠ some stop then none
    else some (b, s, e)
  | r :: rest, b, s, j, e =>
    if e = none ∧ 0 < j ∧ b.getLast? ≠ some stop then
      readLoopAux stop rest (b ++ s.take (portChunk r (32 - b.length) s.length))
        (s.drop (portChunk r (32 - b.length) s.length))
        (portChunk r (32 - b.length) s.length) r.err
    else
      some (b, s, e)

/-- One full iteration of the outer loop of readRoutine: allocate the fresh
32-byte buffer (b empty, 32 bytes free), run the first physical read and the
accumulation loop (the first read is the first iteration of readLoopAux:
with b empty and e nil the loop condition initially holds), then strip one
trailing terminator byte (if i > 0 and b[i-1] == StopByte then i -= 1) and
deliver (frame, remaining stream, err). -/
def readRoutineStep (stop : Nat) (splits : List PortRead) (s : List Nat) :
    Option (List Nat × List Nat × Option String) :=
  match readLoopAux stop splits [] s 1 none with
  | none => none
  | some (b, s2, e) =>
    let frame := if 0 < b.length ∧ b.getLast? = some stop then b.dropLast else b
    some (frame, s2, e)

/-- One discovery candidate: its port name, the result of serial.Open on it
(none = open succeeded), and the result of the connection probe
rb.TestConnection() run when the open succeeded (none = probe succeeded).
Modelled from the spec: the probe itself (TestConnection of the regenbox
package) is not part of the given source; per the spec it is an external
black-box collaborator returning success or an error, so its outcome per
candidate is an input here. -/
structure Candidate where
  name : String
  openErr : Option String
  probeErr : Option String
deriving DecidableEq

/-- The outcome of FindSerial: the returned connection and error (mirroring
the Go pair result), plus the list of candidate connections FindSerial
closed along the way (each recorded in the state it had when closed). -/
structure FindOutcome where
  conn : Option SerialConnection
  err : Option GoError
  closedConns : List SerialConnection
deriving DecidableEq

/-- The candidate loop of FindSerial. lastErr is the value of the err
variable entering the iteration. On an open failure, err is set to that
error and the loop continues. On a successful open, err is nil; the
connection is built with NewSerial(port, *config, v, false), both timeouts
are set to 50ms, and the probe runs (its error is a fresh, shadowed err
variable, so it never reaches lastErr). On probe success both timeouts are
restored to DefaultTimeout and the connection is returned at once; on probe
failure the connection is closed and the loop continues with lastErr nil.
After the loop: ErrNoSerialPortFound if err is nil, else err. -/
def findSerialLoop (config : SerialMode) :
    List Candidate → Option GoError → FindOutcome
  | [], none => { conn := none, err := some GoError.noSerialPortFound, closedConns := [] }
  | [], some e => { conn := none, err := some e, closedConns := [] }
  | ⟨_, some e, _⟩ :: rest, _ =>
    findSerialLoop config rest (some (GoError.ioError e))
  | ⟨nm, none, none⟩ :: _, _ =>
    let conn0 := { NewSerial config nm false with
                     readTimeout := probingTimeout, writeTimeout := probingTimeout }
    { conn := some { conn0 with readTimeout := DefaultTimeout, writeTimeout := DefaultTimeout }
      err := none
      closedConns := [] }
  | ⟨nm, none, some _⟩ :: rest, _ =>
    let conn0 := { NewSerial config nm false with
                     readTimeout := probingTimeout, writeTimeout := probingTimeout }
    let o := findSerialLoop config rest none
    { o with closedConns := { conn0 with closed := true } :: o.closedConns }

/-- FindSerial of serial.go. enumErr is the oracle for the error of
serial.GetPortsList (a failing enumeration is propagated at once); cands
lists the enumerated candidates in order; a nil config argument is replaced
by DefaultSerialConfig. -/
def FindSerial (config : Option SerialMode) (enumErr : Option GoError)
    (cands : List Candidate) : FindOutcome :=
  match enumErr with
  | some e => { conn := none, err := some e, closedConns := [] }
  | none => findSerialLoop (config.getD DefaultSerialConfig) cands none

/-- The value of the err variable of FindSerial after the whole candidate
list has been scanned without an early return: each iteration overwrites it
with the result of serial.Open on that candidate (probe errors are assigned
to a shadowed variable and never reach it). none for an empty list. -/
def recordedErrAfter (cands : List Candidate) : Option GoError :=
  cands.foldl (fun _ c => c.openErr.map GoError.ioError) none

/-- One request issued against a SerialConnection, with its schedule
oracles. -/
inductive SerialOp where
  | readOp (br : ReadBranch) : SerialOp
  | writeOp (b : List Nat) (br : WriteBranch) : SerialOp
  | closeOp (portCloseErr : Option String) : SerialOp
  | closedOp : SerialOp
  | pathOp : SerialOp

/-- The observable result of one request. -/
inductive SerialObs where
  | readObs (frame : List Nat) (err : Option GoError) : SerialObs
  | writeObs (err : Option GoError) : SerialObs
  | closeObs (err : Option GoError) (actions : List CloseAction) : SerialObs
  | closedObs (fired : Bool) : SerialObs
  | pathObs (p : String) : SerialObs

/-- Run one request against the connection, returning the successor state
and the observation. Read and Write leave the state unchanged; Close
updates it. -/
def stepOp (sc : SerialConnection) : SerialOp → SerialConnection × SerialObs
  | .readOp br => (sc, SerialObs.readObs (sc.Read br).1 (sc.Read br).2)
  | .writeOp b br => (sc, SerialObs.writeObs (sc.Write b br))
  | .closeOp pe =>
    let r := sc.Close pe
    (r.1, SerialObs.closeObs r.2.1 r.2.2)
  | .closedOp => (sc, SerialObs.closedObs sc.ClosedSignal)
  | .pathOp => (sc, SerialObs.pathObs sc.Path)

/-- Run a sequence of requests, collecting the observations. -/
def runOps (sc : SerialConnection) : List SerialOp → List SerialObs
  | [] => []
  | op :: rest =>
    let r := stepOp sc op
    r.2 :: runOps r.1 rest

/-- First candidate of the discovery scenario of C6: opening it fails. -/
def c6cand1 : Candidate := { name := "p1", openErr := some "open failed", probeErr := none }

/-- Second candidate of the discovery scenario of C6: opens, probe fails. -/
def c6cand2 : Candidate := { name := "p2", openErr := none, probeErr := some "probe failed" }

/-- Third candidate of the discovery scenario of C6: opens, probe succeeds. -/
def c6cand3 : Candidate := { name := "p3", openErr := none, probeErr := none }

/-
Theorems. Each claim of the specification is settled by one theorem below,
named in its doc comment.
-/

/-- C3: in a Read call in which a frame b has already been received from the
read worker and the shutdown signal fires before the worker delivers the
paired error report, Read returns (b, nil): the frame together with a nil
error, not ErrClosedPort. -/
theorem read_frame_then_shutdown_returns_frame_nil
    (sc : SerialConnection) (b : List Nat) :
    sc.Read (ReadBranch.frameFirst b ReadAfterFrame.closedFired) = (b, none) := rfl

/-- C7: when Read completes by timeout, the returned frame is empty (the nil
slice) and the returned error is the read-timeout error that carries the
configured ReadTimeout duration (Go renders that duration into the message
of the fmt.Errorf error; the embedded error carries it as a field, recovered
by GoError.timeoutDuration). -/
theorem read_timeout_error_carries_duration (sc : SerialConnection) :
    sc.Read ReadBranch.timeoutFirst = ([], some (GoError.readTimeout sc.readTimeout)) ∧
    ((sc.Read ReadBranch.timeoutFirst).2.bind GoError.timeoutDuration = some sc.readTimeout) :=
  ⟨rfl, rfl⟩

/-- C2, counterexample: the wait of Write for the worker error report after
the frame was accepted on wrChan is the inner select of Write, and that
select has no time.After case at all (only errChan and closeChan), while
the time.After(sc.WriteTimeout) case sits in the outer select only; so the
wait after acceptance does not race WriteTimeout, contradicting the claim
that Write returns no later than WriteTimeout after the frame is accepted
even if the worker never delivers an error result (a select none of whose
cases can fire blocks forever). -/
theorem write_inner_select_has_no_timer :
    SelectCase.timer ∉ writeInnerSelect ∧ SelectCase.timer ∈ writeOuterSelect := by
  decide

/-- C2, amended: the WriteTimeout race applies only to the acceptance phase
of Write (the outer select): if the timer fires before the frame is
accepted, Write returns the write-timeout error carrying
sc.WriteTimeout. Once the frame has been accepted, Write waits for the
worker error racing only the shutdown signal (the inner select has an
errChan case and a closeChan case and no timer case), and no outcome of
that wait is a write-timeout error: the result is the worker error
(propagated I/O error or nil) or ErrClosedPort. -/
theorem write_timeout_races_only_acceptance (sc : SerialConnection) (b : List Nat) :
    sc.Write b WriteBranch.timeoutFirst = some (GoError.writeTimeout sc.writeTimeout) ∧
    SelectCase.timer ∈ writeOuterSelect ∧
    SelectCase.timer ∉ writeInnerSelect ∧
    (∀ (second : WriteAfterAccept) (d : Nat),
      sc.Write b (WriteBranch.accepted second) ≠ some (GoError.writeTimeout d)) ∧
    (∀ e : Option String,
      sc.Write b (WriteBranch.accepted (WriteAfterAccept.workerErr e)) = e.map GoError.ioError) ∧
    sc.Write b (WriteBranch.accepted WriteAfterAccept.closedFired) = some GoError.errClosedPort := by
  refine ⟨rfl, by decide, by decide, ?_, fun e => rfl, rfl⟩
  intro second d
  cases second with
  | workerErr e => cases e <;> simp [SerialConnection.Write]
  | closedFired => simp [SerialConnection.Write]

/-- C8, counterexample: the SerialConnection struct has a single shared
error channel errChan, not one per direction. The channel on which the
write worker delivers its error (sc.errChan <- err in writeRoutine) is the
very channel from which the inner select of Read receives the error
(err = <-sc.errChan in Read), and symmetrically for the read worker and
Write. Since an unbuffered channel pairs any sender with any receiver on
the same channel, a concurrently running Read can consume the error
produced by the write worker (and Write the error of the read worker),
contradicting the claimed per-direction separation of the error relays. -/
theorem error_channel_shared_between_directions :
    writeRoutineErrChan = readCallErrChan ∧ readRoutineErrChan = writeCallErrChan := by
  decide

/-- C8, amended: the Transport has one data relay channel per direction
(rdChan carries frames from the read worker to Read, wrChan carries frames
from Write to the write worker, and the two are distinct), but both workers
deliver their propagated I/O errors on the one shared channel errChan, the
same channel from which both Read and Write receive errors; so the error
relays of the two directions are not separate, and a concurrently running
Read can consume the error produced by the write worker (and conversely). -/
theorem data_channels_separate_error_channel_shared :
    readRoutineFrameChan = readCallFrameChan ∧
    writeCallSendChan = writeRoutineRecvChan ∧
    readRoutineFrameChan ≠ writeRoutineRecvChan ∧
    readRoutineErrChan = writeRoutineErrChan ∧
    readCallErrChan = writeRoutineErrChan ∧
    writeCallErrChan = readRoutineErrChan := by
  decide

/-- C4: Close is idempotent-guarded. On a connection whose shutdown signal
has not fired, Close fires the shutdown signal, physically closes the port,
waits for both workers, and returns the physical close result (nil on
success); on the resulting connection every further Close detects the
already-fired signal in its non-blocking check and returns ErrClosedPort,
performing no action and no state transition. -/
theorem close_idempotent_guarded (sc : SerialConnection)
    (h : sc.closed = false) (e e2 : Option String) :
    sc.Close e = ({ sc with closed := true }, e.map GoError.ioError,
      [CloseAction.fireShutdown, CloseAction.portClose, CloseAction.waitWorkers]) ∧
    (sc.Close e).1.Close e2 = ((sc.Close e).1, some GoError.errClosedPort, []) := by
  constructor
  · simp [SerialConnection.Close, h]
  · simp [SerialConnection.Close, h]

/-- C4, witness: the two Close calls evaluated on a freshly constructed
connection, with a successful physical close. -/
theorem close_idempotent_guarded_witness :
    (NewSerial DefaultSerialConfig "ttyUSB0" false).Close none =
      ({ NewSerial DefaultSerialConfig "ttyUSB0" false with closed := true }, none,
        [CloseAction.fireShutdown, CloseAction.portClose, CloseAction.waitWorkers]) ∧
    ((NewSerial DefaultSerialConfig "ttyUSB0" false).Close none).1.Close (some "already gone") =
      (((NewSerial DefaultSerialConfig "ttyUSB0" false).Close none).1,
        some GoError.errClosedPort, []) :=
  close_idempotent_guarded (NewSerial DefaultSerialConfig "ttyUSB0" false) rfl none
    (some "already gone")

/-- C6: on the three-candidate discovery scenario (first open fails, second
opens but fails its probe, third opens and passes its probe), FindSerial
returns the connection bound to the third candidate with both timeouts
restored to the production default DefaultTimeout (one second), having
closed the second candidate connection (still carrying its short probing
timeouts); and the search stops at the third candidate: whatever further
candidates follow, the outcome is the same. -/
theorem findserial_three_candidate_scenario (rest : List Candidate) :
    FindSerial none none ([c6cand1, c6cand2, c6cand3] ++ rest) =
      { conn := some { readTimeout := DefaultTimeout, writeTimeout := DefaultTimeout,
                       path := "p3", locked := false, config := DefaultSerialConfig,
                       closed := false }
        err := none
        closedConns := [{ readTimeout := probingTimeout, writeTimeout := probingTimeout,
                          path := "p2", locked := false, config := DefaultSerialConfig,
                          closed := true }] } := rfl

/-- Helper for C5: if no candidate both opens and passes its probe, the
candidate loop of FindSerial returns no connection, and its error is the
final value of the err variable (the fold of the open results over the
list, starting from the value entering the loop) if that value is non-nil,
and ErrNoSerialPortFound if that value is nil. -/
theorem findSerialLoop_exhausted (config : SerialMode) :
    ∀ (cands : List Candidate) (lastErr : Option GoError),
      (∀ c ∈ cands, c.openErr ≠ none ∨ c.probeErr ≠ none) →
      (findSerialLoop config cands lastErr).conn = none ∧
      (findSerialLoop config cands lastErr).err =
        some ((cands.foldl (fun _ c => c.openErr.map GoError.ioError) lastErr).getD
                GoError.noSerialPortFound) := by
  intro cands
  induction cands with
  | nil =>
    intro lastErr _
    cases lastErr <;> simp [findSerialLoop]
  | cons c rest ih =>
    intro lastErr h
    have hrest : ∀ x ∈ rest, x.openErr ≠ none ∨ x.probeErr ≠ none := by
      intro x hx
      exact h x (List.mem_cons_of_mem c hx)
    obtain ⟨nm, oe, pe⟩ := c
    cases oe with
    | some e =>
      simpa [findSerialLoop] using ih (some (GoError.ioError e)) hrest
    | none =>
      cases pe with
      | none =>
        have := h ⟨nm, none, none⟩ (List.mem_cons_self _ _)
        simp at this
      | some p =>
        simpa [findSerialLoop] using ih none hrest

/-- C5: if FindSerial exhausts its candidates with no probe succeeding, it
returns no connection, and returns ErrNoSerialPortFound when the recorded
error is nil (every open attempt of the final scan nominally succeeded, in
particular when the candidate list is empty), and the last recorded
open error otherwise (probe errors are assigned to a shadowed variable and
are never the recorded error). -/
theorem findserial_exhausted_error (config : Option SerialMode)
    (cands : List Candidate)
    (h : ∀ c ∈ cands, c.openErr ≠ none ∨ c.probeErr ≠ none) :
    (FindSerial config none cands).conn = none ∧
    (FindSerial config none cands).err =
      some ((recordedErrAfter cands).getD GoError.noSerialPortFound) := by
  simpa [FindSerial, recordedErrAfter] using
    findSerialLoop_exhausted (config.getD DefaultSerialConfig) cands none h

/-- C5, witness: two candidates, the first failing to open, the second
opening but failing its probe; the recorded error after the scan is nil
(the last open succeeded), so FindSerial returns ErrNoSerialPortFound. -/
theorem findserial_exhausted_error_witness :
    (FindSerial none none
        [{ name := "a", openErr := some "open a failed", probeErr := none },
         { name := "b", openErr := none, probeErr := some "probe b failed" }]).conn = none ∧
    (FindSerial none none
        [{ name := "a", openErr := some "open a failed", probeErr := none },
         { name := "b", openErr := none, probeErr := some "probe b failed" }]).err =
      some ((recordedErrAfter
        [{ name := "a", openErr := some "open a failed", probeErr := none },
         { name := "b", openErr := none, probeErr := some "probe b failed" }]).getD
          GoError.noSerialPortFound) :=
  findserial_exhausted_error none
    [{ name := "a", openErr := some "open a failed", probeErr := none },
     { name := "b", openErr := none, probeErr := some "probe b failed" }]
    (by decide)

/-- Helper for C1: if the pending stream holds exactly F followed by the
terminator, F is free of the terminator, everything fits in the remaining
buffer space, and the oracle provides enough error-free reads, then the
accumulation loop consumes the whole stream and stops exactly at the
terminator, however the oracle splits the reads. -/
theorem readLoopAux_complete (stop : Nat) (F : List Nat) (hstop : stop ∉ F) :
    ∀ (splits : List PortRead) (b s : List Nat) (j : Nat),
      b ++ s = F ++ [stop] → 0 < j → b.length + s.length ≤ 32 →
      s.length ≤ splits.length → (∀ r ∈ splits, r.err = none) →
      readLoopAux stop splits b s j none = some (F ++ [stop], [], none) := by
  intro splits
  induction splits with
  | nil =>
    intro b s j hbs hj _ hslen _
    have hs0 : s.length = 0 := by simpa using hslen
    have hs : s = [] := List.length_eq_zero.mp hs0
    subst hs
    rw [List.append_nil] at hbs
    subst hbs
    simp only [readLoopAux]
    rw [if_neg]
    simp [List.getLast?_concat]
  | cons r rest ih =>
    intro b s j hbs hj hlen hslen herr
    by_cases hlast : b.getLast? = some stop
    · have hsnil : s = [] := by
        by_contra hne
        have hbne : b ≠ [] := by
          intro hb
          rw [hb] at hlast
          simp at hlast
        have hs2 : s.dropLast ++ [s.getLast hne] = s := List.dropLast_append_getLast hne
        have hsplit : (b ++ s.dropLast) ++ [s.getLast hne] = F ++ [stop] := by
          rw [List.append_assoc, hs2, hbs]
        have h2 := List.append_inj' hsplit rfl
        have h3 := List.getLast?_eq_getLast b hbne
        rw [hlast] at h3
        injection h3 with h4
        have hmem : stop ∈ b := by
          rw [h4]
          exact List.getLast_mem hbne
        have hmemF : stop ∈ F := by
          rw [← h2.1]
          exact List.mem_append_left _ hmem
        exact hstop hmemF
      subst hsnil
      rw [List.append_nil] at hbs
      subst hbs
      simp only [readLoopAux]
      rw [if_neg]
      simp [hlast]
    · have hsne : s ≠ [] := by
        intro hs
        subst hs
        rw [List.append_nil] at hbs
        subst hbs
        exact hlast (by simp)
      have hre : r.err = none := herr r (List.mem_cons_self r rest)
      have hs1 : 1 ≤ s.length := by
        cases s with
        | nil => exact absurd rfl hsne
        | cons a t => simp
      have hfree : 1 ≤ 32 - b.length := by omega
      have hpc : portChunk r (32 - b.length) s.length
          = min (max r.n 1) (min (32 - b.length) s.length) := by
        simp [portChunk, hre]
      have hk1 : 1 ≤ portChunk r (32 - b.length) s.length := by omega
      have hks : portChunk r (32 - b.length) s.length ≤ s.length := by omega
      simp only [readLoopAux]
      rw [if_pos ⟨trivial, hj, hlast⟩, hre]
      refine ih (b ++ s.take (portChunk r (32 - b.length) s.length))
        (s.drop (portChunk r (32 - b.length) s.length))
        (portChunk r (32 - b.length) s.length) ?_ hk1 ?_ ?_ ?_
      · rw [List.append_assoc, List.take_append_drop, hbs]
      · rw [List.length_append, List.length_take, List.length_drop]
        omega
      · rw [List.length_drop]
        have hrlen : s.length ≤ rest.length + 1 := by simpa using hslen
        omega
      · intro x hx
        exact herr x (List.mem_cons_of_mem r hx)

/-- Helper for C1 at the buffer boundary: if the pending stream holds a
32-byte frame F followed by the terminator, the accumulation loop fills the
whole 32-byte buffer with F (the buffer can never reach the terminator),
the next physical read into the full buffer returns zero bytes, and the
loop exits delivering exactly F with the terminator still pending. The
invariant carried through the loop is that the buffer is a prefix of F of
length at most 32, with either the last read having made progress or the
buffer already full. -/
theorem readLoopAux_fill (stop : Nat) (F : List Nat)
    (hstop : stop ∉ F) (hF : F.length = 32) :
    ∀ (splits : List PortRead) (b s : List Nat) (j : Nat),
      b ++ s = F ++ [stop] → b.length ≤ 32 → (0 < j ∨ 32 ≤ b.length) →
      (0 < j → s.length ≤ splits.length) → (∀ r ∈ splits, r.err = none) →
      readLoopAux stop splits b s j none = some (F, [stop], none) := by
  intro splits
  induction splits with
  | nil =>
    intro b s j hbs hble hdisj hsplen _
    have hlen33 : b.length + s.length = 33 := by
      have h0 := congrArg List.length hbs
      simpa [hF] using h0
    by_cases hj : 0 < j
    · exfalso
      have hs0 : s.length ≤ 0 := by simpa using hsplen hj
      omega
    · have hb32 : 32 ≤ b.length := hdisj.resolve_left hj
      have hbl : b.length = F.length := by omega
      have hbF : b = F := by
        have h1 : (F ++ [stop]).take F.length = F := List.take_left F [stop]
        have h2 : (b ++ s).take b.length = b := List.take_left b s
        rw [hbs, hbl, h1] at h2
        exact h2.symm
      have hsStop : s = [stop] := by
        have h1 : (F ++ [stop]).drop F.length = [stop] := List.drop_left F [stop]
        have h2 : (b ++ s).drop b.length = s := List.drop_left b s
        rw [hbs, hbl, h1] at h2
        exact h2.symm
      simp only [readLoopAux]
      rw [if_neg]
      · rw [hbF, hsStop]
      · intro hc
        exact hj hc.2.1
  | cons r rest ih =>
    intro b s j hbs hble hdisj hsplen herr
    have hlen33 : b.length + s.length = 33 := by
      have h0 := congrArg List.length hbs
      simpa [hF] using h0
    by_cases hj : 0 < j
    · have hs1 : 1 ≤ s.length := by omega
      have hbF : b = F.take b.length := by
        have h2 : (b ++ s).take b.length = b := List.take_left b s
        have h3 : (F ++ [stop]).take b.length = F.take b.length :=
          List.take_append_of_le_length (by omega)
        rw [hbs, h3] at h2
        exact h2.symm
      have hlastb : b.getLast? ≠ some stop := by
        intro hl
        have hbne : b ≠ [] := by
          intro h0
          rw [h0] at hl
          simp at hl
        have h3 := List.getLast?_eq_getLast b hbne
        rw [hl] at h3
        injection h3 with h4
        have hmem : stop ∈ b := by
          rw [h4]
          exact List.getLast_mem hbne
        rw [hbF] at hmem
        exact hstop (List.take_subset _ F hmem)
      have hre : r.err = none := herr r (List.mem_cons_self r rest)
      have hpc : portChunk r (32 - b.length) s.length
          = min (max r.n 1) (min (32 - b.length) s.length) := by
        simp [portChunk, hre]
      simp only [readLoopAux]
      rw [if_pos ⟨trivial, hj, hlastb⟩, hre]
      refine ih (b ++ s.take (portChunk r (32 - b.length) s.length))
        (s.drop (portChunk r (32 - b.length) s.length))
        (portChunk r (32 - b.length) s.length) ?_ ?_ ?_ ?_ ?_
      · rw [List.append_assoc, List.take_append_drop, hbs]
      · rw [List.length_append, List.length_take]
        omega
      · rw [List.length_append, List.length_take]
        omega
      · intro hk
        rw [List.length_drop]
        have hsl := hsplen hj
        simp only [List.length_cons] at hsl
        omega
      · intro x hx
        exact herr x (List.mem_cons_of_mem r hx)
    · have hb32 : 32 ≤ b.length := hdisj.resolve_left hj
      have hbl : b.length = F.length := by omega
      have hbF : b = F := by
        have h1 : (F ++ [stop]).take F.length = F := List.take_left F [stop]
        have h2 : (b ++ s).take b.length = b := List.take_left b s
        rw [hbs, hbl, h1] at h2
        exact h2.symm
      have hsStop : s = [stop] := by
        have h1 : (F ++ [stop]).drop F.length = [stop] := List.drop_left F [stop]
        have h2 : (b ++ s).drop b.length = s := List.drop_left b s
        rw [hbs, hbl, h1] at h2
        exact h2.symm
      simp only [readLoopAux]
      rw [if_neg]
      · rw [hbF, hsStop]
      · intro hc
        exact hj hc.2.1

/-- C1, amended: for every frame F not containing the terminator byte and of
length at most 32 (the size of the fixed read buffer), if the physical port
delivers the bytes of F followed by the terminator, then whatever way the
successive error-free physical reads split the input, one iteration of the
read worker delivers exactly F with a nil error, and a Read call handed
this frame and its nil worker error returns exactly (F, nil). For F of
length at most 31 the worker also consumes the terminator and strips it; at
length exactly 32 the frame fills the buffer, the zero-byte read into the
full buffer ends the loop, nothing is stripped (the last buffered byte is
not the terminator), and the terminator stays pending for the next worker
iteration, which delivers it as a separate empty frame. -/
theorem read_returns_frame_upto_32_bytes (sc : SerialConnection)
    (stop : Nat) (F : List Nat) (splits : List PortRead)
    (hstop : stop ∉ F) (hlen : F.length ≤ 32)
    (hsplits : F.length + 1 ≤ splits.length)
    (herr : ∀ r ∈ splits, r.err = none) :
    readRoutineStep stop splits (F ++ [stop]) =
      some (F, if F.length = 32 then [stop] else [], none) ∧
    sc.Read (ReadBranch.frameFirst F (ReadAfterFrame.workerErr none)) = (F, none) := by
  constructor
  · by_cases h32 : F.length = 32
    · have h1 : readLoopAux stop splits [] (F ++ [stop]) 1 none
          = some (F, [stop], none) := by
        refine readLoopAux_fill stop F hstop h32 splits [] (F ++ [stop]) 1 rfl (by simp)
          (Or.inl Nat.one_pos) ?_ herr
        intro _
        simpa using hsplits
      have hFne : F ≠ [] := by
        intro h0
        rw [h0] at h32
        simp at h32
      have hlast : F.getLast? ≠ some stop := by
        intro hl
        have h3 := List.getLast?_eq_getLast F hFne
        rw [hl] at h3
        injection h3 with h4
        refine hstop ?_
        rw [h4]
        exact List.getLast_mem hFne
      unfold readRoutineStep
      rw [h1]
      simp [h32, hlast]
    · have h1 : readLoopAux stop splits [] (F ++ [stop]) 1 none
          = some (F ++ [stop], [], none) := by
        refine readLoopAux_complete stop F hstop splits [] (F ++ [stop]) 1 rfl Nat.one_pos
          ?_ ?_ herr
        · simp
          omega
        · simpa using hsplits
      unfold readRoutineStep
      rw [h1]
      simp [h32, List.getLast?_concat, List.dropLast_concat]
  · rfl

/-- C1, witness: the 3-byte frame 1 2 3 with terminator 9, delivered in
four one-or-two-byte reads, comes back exactly with the terminator consumed
and stripped; and a full 32-byte frame of bytes 7 with terminator 0,
delivered in thirty-three one-byte reads, comes back exactly with the
terminator left pending. -/
theorem read_returns_frame_upto_32_bytes_witness :
    (readRoutineStep 9 [⟨2, none⟩, ⟨2, none⟩, ⟨2, none⟩, ⟨2, none⟩] ([1, 2, 3] ++ [9])
        = some ([1, 2, 3], [], none) ∧
      (NewSerial DefaultSerialConfig "w" false).Read
        (ReadBranch.frameFirst [1, 2, 3] (ReadAfterFrame.workerErr none)) = ([1, 2, 3], none)) ∧
    (readRoutineStep 0 (List.replicate 33 ⟨1, none⟩) (List.replicate 32 7 ++ [0])
        = some (List.replicate 32 7, [0], none) ∧
      (NewSerial DefaultSerialConfig "w2" false).Read
        (ReadBranch.frameFirst (List.replicate 32 7) (ReadAfterFrame.workerErr none))
        = (List.replicate 32 7, none)) :=
  ⟨read_returns_frame_upto_32_bytes (NewSerial DefaultSerialConfig "w" false) 9 [1, 2, 3]
      [⟨2, none⟩, ⟨2, none⟩, ⟨2, none⟩, ⟨2, none⟩] (by decide) (by decide) (by decide)
      (by decide),
   read_returns_frame_upto_32_bytes (NewSerial DefaultSerialConfig "w2" false) 0
      (List.replicate 32 7) (List.replicate 33 ⟨1, none⟩) (by decide) (by decide) (by decide)
      (by decide)⟩

/-- C1, counterexample to the claim as stated (no upper bound on the length
of F): for the 33-byte frame of bytes 7 with terminator 0, the read worker
fills its fixed 32-byte buffer, the next physical read into the full buffer
returns zero bytes, and the worker delivers only the first 32 bytes as the
frame, leaving the last byte and the terminator pending; the delivered
frame is not F. -/
theorem read_frame_longer_than_buffer_counterexample :
    readRoutineStep 0 [⟨34, none⟩, ⟨1, none⟩] (List.replicate 33 7 ++ [0])
      = some (List.replicate 32 7, [7, 0], none) ∧
    List.replicate 32 7 ≠ List.replicate 33 7 := by
  constructor
  · decide
  · decide

/-- Helper for C9: the accumulation loop never grows the buffer beyond the
32 bytes of the fixed buffer of readRoutine, because every physical read is
issued into b[i:] and can return at most the free space 32 - i. -/
theorem readLoopAux_length_bound (stop : Nat) :
    ∀ (splits : List PortRead) (b s : List Nat) (j : Nat) (e : Option String)
      (b2 s2 : List Nat) (e2 : Option String),
      b.length ≤ 32 →
      readLoopAux stop splits b s j e = some (b2, s2, e2) →
      b2.length ≤ 32 := by
  intro splits
  induction splits with
  | nil =>
    intro b s j e b2 s2 e2 hb h
    simp only [readLoopAux] at h
    by_cases hc : e = none ∧ 0 < j ∧ b.getLast? ≠ some stop
    · rw [if_pos hc] at h
      exact Option.noConfusion h
    · rw [if_neg hc] at h
      simp only [Option.some.injEq, Prod.mk.injEq] at h
      obtain ⟨h1, -, -⟩ := h
      rw [← h1]
      exact hb
  | cons r rest ih =>
    intro b s j e b2 s2 e2 hb h
    simp only [readLoopAux] at h
    by_cases hc : e = none ∧ 0 < j ∧ b.getLast? ≠ some stop
    · rw [if_pos hc] at h
      refine ih _ _ _ _ _ _ _ ?_ h
      have hpc : portChunk r (32 - b.length) s.length ≤ 32 - b.length :=
        le_trans (Nat.min_le_right _ _) (Nat.min_le_left _ _)
      rw [List.length_append, List.length_take]
      omega
    · rw [if_neg hc] at h
      simp only [Option.some.injEq, Prod.mk.injEq] at h
      obtain ⟨h1, -, -⟩ := h
      rw [← h1]
      exact hb

/-- C9: every frame the read worker delivers has length at most 32 bytes:
the worker accumulates into a fixed 32-byte buffer, so input longer than
that is delivered across several frames, never as one longer frame. -/
theorem delivered_frame_length_at_most_32 (stop : Nat) (splits : List PortRead)
    (s frame rest2 : List Nat) (e2 : Option String)
    (h : readRoutineStep stop splits s = some (frame, rest2, e2)) :
    frame.length ≤ 32 := by
  cases heq : readLoopAux stop splits [] s 1 none with
  | none =>
    rw [readRoutineStep, heq] at h
    exact Option.noConfusion h
  | some t =>
    obtain ⟨b, s3, e3⟩ := t
    have h2 : readRoutineStep stop splits s
        = some (if 0 < b.length ∧ b.getLast? = some stop then b.dropLast else b, s3, e3) := by
      rw [readRoutineStep, heq]
    rw [h] at h2
    simp only [Option.some.injEq, Prod.mk.injEq] at h2
    obtain ⟨h1, -, -⟩ := h2
    have hb := readLoopAux_length_bound stop splits [] s 1 none b s3 e3 (by simp) heq
    rw [h1]
    by_cases hcond : 0 < b.length ∧ b.getLast? = some stop
    · rw [if_pos hcond, List.length_dropLast]
      omega
    · rw [if_neg hcond]
      exact hb

/-- C9, witness: the two-byte input 2 followed by terminator 1 is delivered
as the one-byte frame 2, of length at most 32. -/
theorem delivered_frame_length_at_most_32_witness :
    readRoutineStep 1 [⟨5, none⟩] [2, 1] = some ([2], [], none) ∧
    ([2] : List Nat).length ≤ 32 :=
  ⟨by decide, delivered_frame_length_at_most_32 1 [⟨5, none⟩] [2, 1] [2] [] none (by decide)⟩

/-- Helper for C10: the observations of any request sequence do not depend
on the locked field, which no operation of the transport ever reads. -/
theorem runOps_ignores_locked :
    ∀ (ops : List SerialOp) (rt wt : Nat) (p : String) (l1 l2 : Bool)
      (cfg : SerialMode) (cl : Bool),
      runOps ⟨rt, wt, p, l1, cfg, cl⟩ ops = runOps ⟨rt, wt, p, l2, cfg, cl⟩ ops := by
  intro ops
  induction ops with
  | nil => intro rt wt p l1 l2 cfg cl; rfl
  | cons op rest ih =>
    intro rt wt p l1 l2 cfg cl
    cases op with
    | readOp br =>
      cases br with
      | frameFirst b second =>
        cases second <;> simp only [runOps, stepOp, SerialConnection.Read] <;>
          exact congrArg (List.cons _) (ih rt wt p l1 l2 cfg cl)
      | closedFirst =>
        simp only [runOps, stepOp, SerialConnection.Read]
        exact congrArg (List.cons _) (ih rt wt p l1 l2 cfg cl)
      | timeoutFirst =>
        simp only [runOps, stepOp, SerialConnection.Read]
        exact congrArg (List.cons _) (ih rt wt p l1 l2 cfg cl)
    | writeOp b br =>
      cases br with
      | accepted second =>
        cases second <;> simp only [runOps, stepOp, SerialConnection.Write] <;>
          exact congrArg (List.cons _) (ih rt wt p l1 l2 cfg cl)
      | closedFirst =>
        simp only [runOps, stepOp, SerialConnection.Write]
        exact congrArg (List.cons _) (ih rt wt p l1 l2 cfg cl)
      | timeoutFirst =>
        simp only [runOps, stepOp, SerialConnection.Write]
        exact congrArg (List.cons _) (ih rt wt p l1 l2 cfg cl)
    | closeOp pe =>
      cases cl with
      | true =>
        simp [runOps, stepOp, SerialConnection.Close]
        exact ih rt wt p l1 l2 cfg true
      | false =>
        simp [runOps, stepOp, SerialConnection.Close]
        exact ih rt wt p l1 l2 cfg true
    | closedOp =>
      simp only [runOps, stepOp, SerialConnection.ClosedSignal]
      exact congrArg (List.cons _) (ih rt wt p l1 l2 cfg cl)
    | pathOp =>
      simp only [runOps, stepOp, SerialConnection.Path]
      exact congrArg (List.cons _) (ih rt wt p l1 l2 cfg cl)

/-- C10: the lockPort argument of NewSerial, stored in the locked field, has
no effect on observable behaviour: every sequence of Read, Write, Close,
Closed and Path requests produces identical observations whether the flag
was passed as true or as false. -/
theorem lockPort_flag_unobservable (config : SerialMode) (name : String)
    (ops : List SerialOp) :
    runOps (NewSerial config name true) ops = runOps (NewSerial config name false) ops :=
  runOps_ignores_locked ops DefaultTimeout DefaultTimeout name true false config false
